import Mathlib

/-!
Verification of the PageRank estimator (`pagerank.py`).

The Python functions `transition_model`, `sample_pagerank` and
`iterate_pagerank` are shallowly embedded below.  Python dictionaries keyed by
page name become association lists (`List (Page × _)`, preserving insertion
order, keys distinct); Python sets of pages become duplicate-free `List Page`
(the code only ever tests membership and takes `len`); floats become
exact rationals (the design states real-valued arithmetic); the global `random`
source becomes an explicit stream `src : ℕ → ℚ` of uniform draws consumed at an
explicit, threaded index; code that can raise (`random.choice([])`,
`ZeroDivisionError`) returns `Option`.
-/

set_option maxHeartbeats 4000000

/-- Pages are identified by their file name. -/
abbrev Page := String

/-- A corpus: a dictionary mapping each page to the set of pages it links to.
List order models Python dict insertion order. -/
abbrev Corpus := List (Page × List Page)

/-- A rank/probability mapping as returned by the estimators. -/
abbrev RankDist := List (Page × ℚ)

/-- Translation of `transition_model(corpus, page, damping_factor)`:
if the page is absent from the corpus or has no outgoing links, the uniform
distribution `1/N`; otherwise each corpus page gets `(1/L)*d + (1/N)*(1-d)`
when it is a link target of `page` and `(1/N)*(1-d)` otherwise.  (The Python
guard `corpus.get(page) == {}` compares a set to a dict and is never true; the
`len(corpus[page]) == 0` disjunct is what catches the dangling case.)
In the first branch Python evaluates `1/len(corpus)` before its loop, so on
an empty corpus — which always takes that branch, since `corpus.get(page)` is
`None` — the call raises `ZeroDivisionError`; that is the `none` case here.
In the second branch the page is a key, so the corpus is non-empty and
neither division can raise. -/
def transition_model (corpus : Corpus) (page : Page) (d : ℚ) : Option RankDist :=
  match List.lookup page corpus with
  | none =>
      if corpus.length = 0 then none
      else some (corpus.map (fun kv => (kv.1, 1 / (corpus.length : ℚ))))
  | some links =>
      if links.length = 0 then
        if corpus.length = 0 then none
        else some (corpus.map (fun kv => (kv.1, 1 / (corpus.length : ℚ))))
      else
        some (corpus.map (fun kv => (kv.1,
          if kv.1 ∈ links then
            (1 / (links.length : ℚ)) * d + (1 / (corpus.length : ℚ)) * (1 - d)
          else (1 / (corpus.length : ℚ)) * (1 - d))))

/-- The damped random-surfer rule exactly as the specification words it, for a
current page whose outgoing-link set is `links` in a corpus of `n` pages:
a dangling page yields `1/n` for every page; otherwise every page gets the
teleport term `(1-d)/n` and each outgoing neighbor additionally `d/L`. -/
def transitionSpecValue (n : ℕ) (links : List Page) (d : ℚ) (p : Page) : ℚ :=
  if links.length = 0 then 1 / (n : ℚ)
  else (1 - d) / (n : ℚ) + (if p ∈ links then d / (links.length : ℚ) else 0)

/-- `result[page] += 1` on a counter dictionary. -/
def incr (cnt : List (Page × ℕ)) (p : Page) : List (Page × ℕ) :=
  cnt.map (fun kv => if kv.1 = p then (kv.1, kv.2 + 1) else kv)

/-- Cumulative sums of a weight list (as computed by `random.choices`). -/
def cumulativeFrom (acc : ℚ) : List ℚ → List ℚ
  | [] => []
  | w :: ws => (acc + w) :: cumulativeFrom (acc + w) ws

/-- Index selected by `random.choices(population, weights)` for a uniform draw
`u`: inverse-CDF selection, `bisect(cum_weights, u * total)` clamped to the
last index. -/
def weightedIndex (ws : List ℚ) (u : ℚ) : ℕ :=
  let cum := cumulativeFrom 0 ws
  let total := cum.getLastD 0
  min (cum.countP (fun c => decide (c ≤ u * total))) (ws.length - 1)

/-- Index selected by `random.choice` on a list of length `n` for a uniform
draw `u` (an integer uniform below `n`, realized from the draw and clamped so
the selection is total). -/
def uniformIndex (u : ℚ) (n : ℕ) : ℕ :=
  min (Int.toNat ⌊u * (n : ℚ)⌋) (n - 1)

/-- The inner loop of one trial of `sample_pagerank`: `m` further random-walk
steps from current page `cur`, consuming draws `src t, src (t+1), …`;
returns the updated counters and the next unused draw index.  The walk only
ever runs on a non-empty corpus (`sample_pagerank` fails first otherwise), so
`transition_model` cannot fail here and the `[]` default is unreachable. -/
def walkSteps (corpus : Corpus) (d : ℚ) (src : ℕ → ℚ) :
    ℕ → ℕ → Page → List (Page × ℕ) → List (Page × ℕ) × ℕ
  | 0, t, _, cnt => (cnt, t)
  | Nat.succ m, t, cur, cnt =>
      let probs := (transition_model corpus cur d).getD []
      let nxt := (probs.map Prod.fst).getD (weightedIndex (probs.map Prod.snd) (src t)) ""
      walkSteps corpus d src m (t + 1) nxt (incr cnt nxt)

/-- The outer loop of `sample_pagerank`: `m` remaining trials, each a uniform
starting page followed by `N - 1` transition-model steps. -/
def runTrials (corpus : Corpus) (d : ℚ) (src : ℕ → ℚ) :
    ℕ → ℕ → List (Page × ℕ) → List (Page × ℕ) × ℕ
  | 0, t, cnt => (cnt, t)
  | Nat.succ m, t, cnt =>
      let ks := corpus.map Prod.fst
      let start := ks.getD (uniformIndex (src t) ks.length) ""
      let stepped := walkSteps corpus d src (corpus.length - 1) (t + 1) start (incr cnt start)
      runTrials corpus d src m stepped.2 stepped.1

/-- Translation of `sample_pagerank(corpus, damping_factor, n)`.  `none` models
an uncaught Python exception: `random.choice([])` raises `IndexError` when the
corpus is empty and at least one trial runs, and the normalization
comprehension raises `ZeroDivisionError` when it divides a counter by
`n * num_pages = 0` — which happens exactly when the corpus is non-empty (so
there is at least one counter to divide) and `n = 0`.  On an empty corpus
with `n ≤ 0` the comprehension iterates zero items, never divides, and the
empty mapping is returned.  Note the code performs no input validation of
its own. -/
def sample_pagerank (corpus : Corpus) (d : ℚ) (n : ℤ) (src : ℕ → ℚ) : Option RankDist :=
  if corpus.length = 0 ∧ 0 < n then none
  else
    let init : List (Page × ℕ) := corpus.map (fun kv => (kv.1, 0))
    let cnt := (runTrials corpus d src n.toNat 0 init).1
    if corpus.length ≠ 0 ∧ n = 0 then none
    else some (cnt.map (fun kv => (kv.1, (kv.2 : ℚ) / ((n : ℚ) * (corpus.length : ℚ)))))

/-- One page's new rank in a sweep of `iterate_pagerank`: starting from
`(1 - d)/N` and adding, for every corpus entry `(q, links)`,
`d * (old[q]/len(links))` when the page is in `links` and `d * 0` otherwise —
all read from the prior-iteration snapshot `old`. -/
def sweepRow (corpus : Corpus) (d : ℚ) (old : RankDist) (kv : Page × List Page) :
    Page × ℚ :=
  (kv.1,
    corpus.foldl
      (fun acc qkv =>
        acc + d * (if kv.1 ∈ qkv.2 then ((List.lookup qkv.1 old).getD 0) / (qkv.2.length : ℚ) else 0))
      ((1 - d) / (corpus.length : ℚ)))

/-- One full synchronous sweep of `iterate_pagerank`'s update: every corpus
page receives its `sweepRow` value, computed from the same snapshot. -/
def sweep (corpus : Corpus) (d : ℚ) (old : RankDist) : RankDist :=
  corpus.map (sweepRow corpus d old)

/-- The convergence test of `iterate_pagerank`: every page of the old mapping
moved by at most `0.001`. -/
def converged (old nw : RankDist) : Bool :=
  old.all (fun kv => decide (|((List.lookup kv.1 nw).getD 0) - kv.2| ≤ 1 / 1000))

/-- The `while not convergence` loop of `iterate_pagerank`, with explicit fuel
standing in for the unbounded Python loop (`none` = fuel exhausted before the
loop exited). -/
def iterateLoop (corpus : Corpus) (d : ℚ) : ℕ → RankDist → Option RankDist
  | 0, _ => none
  | Nat.succ fuel, old =>
      let nw := sweep corpus d old
      if converged old nw then some nw else iterateLoop corpus d fuel nw

/-- The initial assignment of `iterate_pagerank`: every page gets `1/N`. -/
def initialRank (corpus : Corpus) : RankDist :=
  corpus.map (fun kv => (kv.1, 1 / (corpus.length : ℚ)))

/-- Translation of `iterate_pagerank(corpus, damping_factor)`. -/
def iterate_pagerank (corpus : Corpus) (d : ℚ) (fuel : ℕ) : Option RankDist :=
  iterateLoop corpus d fuel (initialRank corpus)

/-- `k`-fold application of `sweep` to the initial assignment. -/
def sweeps (corpus : Corpus) (d : ℚ) (x0 : RankDist) : ℕ → RankDist
  | 0 => x0
  | Nat.succ k => sweep corpus d (sweeps corpus d x0 k)

/-- The update rule exactly as the specification words it:
`new_rank(p) = (1 - d)/N + d * Σ over pages q that link to p of
old_rank(q)/outdegree(q)`; a page with outdegree 0 contains no link to `p`,
so it contributes nothing to the sum. -/
def newRankSpec (corpus : Corpus) (d : ℚ) (old : Page → ℚ) (p : Page) : ℚ :=
  (1 - d) / (corpus.length : ℚ)
    + d * (corpus.map (fun qkv =>
        if p ∈ qkv.2 then old qkv.1 / (qkv.2.length : ℚ) else 0)).sum



/-- A 50-page corpus on which the returned mapping of `iterate_pagerank` is
not a fixed point to tolerance.  Every page has out-degree 20; page "0" is
linked to by pages "1"–"21" and by nothing else (incoming weight `21/20`);
pages "1"–"21" each have 21 in-links ("0" links to "1"–"20", each of
"1"–"21" links to the cyclically next 19 of them, and pages "22"–"43"
supply one more each); the remaining pages have 19 or 20 in-links from a
circulant structure on "22"–"49".  After the first sweep at damping 1 every
page has moved by exactly `1/1000`, so the loop stops, while the aligned
surplus into page "0" makes the next sweep move it by `21/20000 > 1/1000`. -/
def cxCorpus : Corpus := [
  ("0", ["1", "2", "3", "4", "5", "6", "7", "8", "9", "10", "11", "12", "13", "14", "15", "16", "17", "18", "19", "20"]),
  ("1", ["0", "2", "3", "4", "5", "6", "7", "8", "9", "10", "11", "12", "13", "14", "15", "16", "17", "18", "19", "20"]),
  ("2", ["0", "3", "4", "5", "6", "7", "8", "9", "10", "11", "12", "13", "14", "15", "16", "17", "18", "19", "20", "21"]),
  ("3", ["0", "4", "5", "6", "7", "8", "9", "10", "11", "12", "13", "14", "15", "16", "17", "18", "19", "20", "21", "1"]),
  ("4", ["0", "5", "6", "7", "8", "9", "10", "11", "12", "13", "14", "15", "16", "17", "18", "19", "20", "21", "1", "2"]),
  ("5", ["0", "6", "7", "8", "9", "10", "11", "12", "13", "14", "15", "16", "17", "18", "19", "20", "21", "1", "2", "3"]),
  ("6", ["0", "7", "8", "9", "10", "11", "12", "13", "14", "15", "16", "17", "18", "19", "20", "21", "1", "2", "3", "4"]),
  ("7", ["0", "8", "9", "10", "11", "12", "13", "14", "15", "16", "17", "18", "19", "20", "21", "1", "2", "3", "4", "5"]),
  ("8", ["0", "9", "10", "11", "12", "13", "14", "15", "16", "17", "18", "19", "20", "21", "1", "2", "3", "4", "5", "6"]),
  ("9", ["0", "10", "11", "12", "13", "14", "15", "16", "17", "18", "19", "20", "21", "1", "2", "3", "4", "5", "6", "7"]),
  ("10", ["0", "11", "12", "13", "14", "15", "16", "17", "18", "19", "20", "21", "1", "2", "3", "4", "5", "6", "7", "8"]),
  ("11", ["0", "12", "13", "14", "15", "16", "17", "18", "19", "20", "21", "1", "2", "3", "4", "5", "6", "7", "8", "9"]),
  ("12", ["0", "13", "14", "15", "16", "17", "18", "19", "20", "21", "1", "2", "3", "4", "5", "6", "7", "8", "9", "10"]),
  ("13", ["0", "14", "15", "16", "17", "18", "19", "20", "21", "1", "2", "3", "4", "5", "6", "7", "8", "9", "10", "11"]),
  ("14", ["0", "15", "16", "17", "18", "19", "20", "21", "1", "2", "3", "4", "5", "6", "7", "8", "9", "10", "11", "12"]),
  ("15", ["0", "16", "17", "18", "19", "20", "21", "1", "2", "3", "4", "5", "6", "7", "8", "9", "10", "11", "12", "13"]),
  ("16", ["0", "17", "18", "19", "20", "21", "1", "2", "3", "4", "5", "6", "7", "8", "9", "10", "11", "12", "13", "14"]),
  ("17", ["0", "18", "19", "20", "21", "1", "2", "3", "4", "5", "6", "7", "8", "9", "10", "11", "12", "13", "14", "15"]),
  ("18", ["0", "19", "20", "21", "1", "2", "3", "4", "5", "6", "7", "8", "9", "10", "11", "12", "13", "14", "15", "16"]),
  ("19", ["0", "20", "21", "1", "2", "3", "4", "5", "6", "7", "8", "9", "10", "11", "12", "13", "14", "15", "16", "17"]),
  ("20", ["0", "21", "1", "2", "3", "4", "5", "6", "7", "8", "9", "10", "11", "12", "13", "14", "15", "16", "17", "18"]),
  ("21", ["0", "1", "2", "3", "4", "5", "6", "7", "8", "9", "10", "11", "12", "13", "14", "15", "16", "17", "18", "19"]),
  ("22", ["21", "23", "24", "25", "26", "27", "28", "29", "30", "31", "32", "33", "34", "35", "36", "37", "38", "39", "40", "41"]),
  ("23", ["21", "24", "25", "26", "27", "28", "29", "30", "31", "32", "33", "34", "35", "36", "37", "38", "39", "40", "41", "42"]),
  ("24", ["1", "25", "26", "27", "28", "29", "30", "31", "32", "33", "34", "35", "36", "37", "38", "39", "40", "41", "42", "43"]),
  ("25", ["2", "26", "27", "28", "29", "30", "31", "32", "33", "34", "35", "36", "37", "38", "39", "40", "41", "42", "43", "44"]),
  ("26", ["3", "27", "28", "29", "30", "31", "32", "33", "34", "35", "36", "37", "38", "39", "40", "41", "42", "43", "44", "45"]),
  ("27", ["4", "28", "29", "30", "31", "32", "33", "34", "35", "36", "37", "38", "39", "40", "41", "42", "43", "44", "45", "46"]),
  ("28", ["5", "29", "30", "31", "32", "33", "34", "35", "36", "37", "38", "39", "40", "41", "42", "43", "44", "45", "46", "47"]),
  ("29", ["6", "30", "31", "32", "33", "34", "35", "36", "37", "38", "39", "40", "41", "42", "43", "44", "45", "46", "47", "48"]),
  ("30", ["7", "31", "32", "33", "34", "35", "36", "37", "38", "39", "40", "41", "42", "43", "44", "45", "46", "47", "48", "49"]),
  ("31", ["8", "32", "33", "34", "35", "36", "37", "38", "39", "40", "41", "42", "43", "44", "45", "46", "47", "48", "49", "22"]),
  ("32", ["9", "33", "34", "35", "36", "37", "38", "39", "40", "41", "42", "43", "44", "45", "46", "47", "48", "49", "22", "23"]),
  ("33", ["10", "34", "35", "36", "37", "38", "39", "40", "41", "42", "43", "44", "45", "46", "47", "48", "49", "22", "23", "24"]),
  ("34", ["11", "35", "36", "37", "38", "39", "40", "41", "42", "43", "44", "45", "46", "47", "48", "49", "22", "23", "24", "25"]),
  ("35", ["12", "36", "37", "38", "39", "40", "41", "42", "43", "44", "45", "46", "47", "48", "49", "22", "23", "24", "25", "26"]),
  ("36", ["13", "37", "38", "39", "40", "41", "42", "43", "44", "45", "46", "47", "48", "49", "22", "23", "24", "25", "26", "27"]),
  ("37", ["14", "38", "39", "40", "41", "42", "43", "44", "45", "46", "47", "48", "49", "22", "23", "24", "25", "26", "27", "28"]),
  ("38", ["15", "39", "40", "41", "42", "43", "44", "45", "46", "47", "48", "49", "22", "23", "24", "25", "26", "27", "28", "29"]),
  ("39", ["16", "40", "41", "42", "43", "44", "45", "46", "47", "48", "49", "22", "23", "24", "25", "26", "27", "28", "29", "30"]),
  ("40", ["17", "41", "42", "43", "44", "45", "46", "47", "48", "49", "22", "23", "24", "25", "26", "27", "28", "29", "30", "31"]),
  ("41", ["18", "42", "43", "44", "45", "46", "47", "48", "49", "22", "23", "24", "25", "26", "27", "28", "29", "30", "31", "32"]),
  ("42", ["19", "43", "44", "45", "46", "47", "48", "49", "22", "23", "24", "25", "26", "27", "28", "29", "30", "31", "32", "33"]),
  ("43", ["20", "44", "45", "46", "47", "48", "49", "22", "23", "24", "25", "26", "27", "28", "29", "30", "31", "32", "33", "34"]),
  ("44", ["45", "46", "47", "48", "49", "22", "23", "24", "25", "26", "27", "28", "29", "30", "31", "32", "33", "34", "35", "36"]),
  ("45", ["46", "47", "48", "49", "22", "23", "24", "25", "26", "27", "28", "29", "30", "31", "32", "33", "34", "35", "36", "37"]),
  ("46", ["47", "48", "49", "22", "23", "24", "25", "26", "27", "28", "29", "30", "31", "32", "33", "34", "35", "36", "37", "38"]),
  ("47", ["48", "49", "22", "23", "24", "25", "26", "27", "28", "29", "30", "31", "32", "33", "34", "35", "36", "37", "38", "39"]),
  ("48", ["49", "22", "23", "24", "25", "26", "27", "28", "29", "30", "31", "32", "33", "34", "35", "36", "37", "38", "39", "40"]),
  ("49", ["22", "23", "24", "25", "26", "27", "28", "29", "30", "31", "32", "33", "34", "35", "36", "37", "38", "39", "40", "41"])]

/-- The mapping produced by the first sweep on `cxCorpus` at damping 1
(each computed value written out: `1/50 + 1/1000` for the 22 pages with 21
in-links, `1/50` for the 6 pages with 20 in-links, `1/50 - 1/1000` for the 22
pages with 19 in-links). -/
def cxR : RankDist := [
  ("0", 21/1000),
  ("1", 21/1000),
  ("2", 21/1000),
  ("3", 21/1000),
  ("4", 21/1000),
  ("5", 21/1000),
  ("6", 21/1000),
  ("7", 21/1000),
  ("8", 21/1000),
  ("9", 21/1000),
  ("10", 21/1000),
  ("11", 21/1000),
  ("12", 21/1000),
  ("13", 21/1000),
  ("14", 21/1000),
  ("15", 21/1000),
  ("16", 21/1000),
  ("17", 21/1000),
  ("18", 21/1000),
  ("19", 21/1000),
  ("20", 21/1000),
  ("21", 21/1000),
  ("22", 19/1000),
  ("23", 19/1000),
  ("24", 19/1000),
  ("25", 19/1000),
  ("26", 19/1000),
  ("27", 19/1000),
  ("28", 19/1000),
  ("29", 19/1000),
  ("30", 19/1000),
  ("31", 19/1000),
  ("32", 19/1000),
  ("33", 19/1000),
  ("34", 19/1000),
  ("35", 19/1000),
  ("36", 1/50),
  ("37", 1/50),
  ("38", 1/50),
  ("39", 1/50),
  ("40", 1/50),
  ("41", 1/50),
  ("42", 19/1000),
  ("43", 19/1000),
  ("44", 19/1000),
  ("45", 19/1000),
  ("46", 19/1000),
  ("47", 19/1000),
  ("48", 19/1000),
  ("49", 19/1000)]

attribute [local semireducible] Rat.mul Rat.inv Rat.add Rat.sub

set_option maxRecDepth 100000

/-- C4 (code bug): on the corpus `{"1.html": {}, "2.html": {"1.html"}}` — a
corpus containing a dangling page — `iterate_pagerank` at damping `17/20`
returns `{1.html: 111/800, 2.html: 3/40}`, whose values sum to `171/800 =
0.21375`, farther than `1e-6` from 1: the dangling page's mass is dropped,
contradicting the function's own docstring "All PageRank values should sum
to 1". -/
theorem iterate_pagerank_dangling_sum_not_one :
    iterate_pagerank [("1.html", ([] : List Page)), ("2.html", ["1.html"])] (17/20) 10
      = some [("1.html", 111/800), ("2.html", 3/40)]
    ∧ ((([("1.html", (111/800 : ℚ)), ("2.html", 3/40)]) : RankDist).map Prod.snd).sum = 171/800
    ∧ 1 - (171/800 : ℚ) > 1/1000000 := by
  refine ⟨by decide, by decide, by decide⟩

/-- C5 (code bug): on the single-page corpus `{"1.html": {}}` at damping
`17/20`, `sample_pagerank` (with `n = 1` and any draws) returns
`{1.html: 1}` as the claim states, but `iterate_pagerank` returns
`{1.html: 3/20}`, not `{1.html: 1}`: the dangling page's own rank mass is
dropped by the update rule. -/
theorem single_page_estimators_disagree :
    sample_pagerank [("1.html", ([] : List Page))] (17/20) 1 (fun _ => 0)
      = some [("1.html", 1)]
    ∧ iterate_pagerank [("1.html", ([] : List Page))] (17/20) 5
      = some [("1.html", 3/20)]
    ∧ (3/20 : ℚ) ≠ 1 := by
  refine ⟨by decide, by decide, by decide⟩

/-- C7 (counterexample): querying `transition_model` with page "c.html",
absent from the two-page corpus, does not fail: it returns the uniform
distribution, a full distribution summing to 1. -/
theorem transition_model_absent_page_cx :
    transition_model [("a.html", ["b.html"]), ("b.html", [])] "c.html" (17/20)
      = some [("a.html", 1/2), ("b.html", 1/2)]
    ∧ ((([("a.html", (1/2 : ℚ)), ("b.html", 1/2)] : RankDist).map Prod.snd)).sum = 1 := by
  refine ⟨by decide, by decide⟩

/-- C8 (counterexample): `sample_pagerank` with the invalid sample count
`n = -1` on a non-empty corpus does not fail at all — it runs zero trials and
returns the all-zero mapping. -/
theorem sample_pagerank_negative_n_cx :
    sample_pagerank [("1.html", ([] : List Page))] (17/20) (-1) (fun _ => 0)
      = some [("1.html", 0)] := by decide

/-- Row 0 of the first sweep on `cxCorpus`. -/
theorem cxRowEq0 :
    sweepRow cxCorpus 1 (initialRank cxCorpus) (cxCorpus.get ⟨0, by decide⟩)
      = cxR.get ⟨0, by decide⟩ := by decide

/-- Row 1 of the first sweep on `cxCorpus`. -/
theorem cxRowEq1 :
    sweepRow cxCorpus 1 (initialRank cxCorpus) (cxCorpus.get ⟨1, by decide⟩)
      = cxR.get ⟨1, by decide⟩ := by decide

/-- Row 2 of the first sweep on `cxCorpus`. -/
theorem cxRowEq2 :
    sweepRow cxCorpus 1 (initialRank cxCorpus) (cxCorpus.get ⟨2, by decide⟩)
      = cxR.get ⟨2, by decide⟩ := by decide

/-- Row 3 of the first sweep on `cxCorpus`. -/
theorem cxRowEq3 :
    sweepRow cxCorpus 1 (initialRank cxCorpus) (cxCorpus.get ⟨3, by decide⟩)
      = cxR.get ⟨3, by decide⟩ := by decide

/-- Row 4 of the first sweep on `cxCorpus`. -/
theorem cxRowEq4 :
    sweepRow cxCorpus 1 (initialRank cxCorpus) (cxCorpus.get ⟨4, by decide⟩)
      = cxR.get ⟨4, by decide⟩ := by decide

/-- Row 5 of the first sweep on `cxCorpus`. -/
theorem cxRowEq5 :
    sweepRow cxCorpus 1 (initialRank cxCorpus) (cxCorpus.get ⟨5, by decide⟩)
      = cxR.get ⟨5, by decide⟩ := by decide

/-- Row 6 of the first sweep on `cxCorpus`. -/
theorem cxRowEq6 :
    sweepRow cxCorpus 1 (initialRank cxCorpus) (cxCorpus.get ⟨6, by decide⟩)
      = cxR.get ⟨6, by decide⟩ := by decide

/-- Row 7 of the first sweep on `cxCorpus`. -/
theorem cxRowEq7 :
    sweepRow cxCorpus 1 (initialRank cxCorpus) (cxCorpus.get ⟨7, by decide⟩)
      = cxR.get ⟨7, by decide⟩ := by decide

/-- Row 8 of the first sweep on `cxCorpus`. -/
theorem cxRowEq8 :
    sweepRow cxCorpus 1 (initialRank cxCorpus) (cxCorpus.get ⟨8, by decide⟩)
      = cxR.get ⟨8, by decide⟩ := by decide

/-- Row 9 of the first sweep on `cxCorpus`. -/
theorem cxRowEq9 :
    sweepRow cxCorpus 1 (initialRank cxCorpus) (cxCorpus.get ⟨9, by decide⟩)
      = cxR.get ⟨9, by decide⟩ := by decide

/-- Row 10 of the first sweep on `cxCorpus`. -/
theorem cxRowEq10 :
    sweepRow cxCorpus 1 (initialRank cxCorpus) (cxCorpus.get ⟨10, by decide⟩)
      = cxR.get ⟨10, by decide⟩ := by decide

/-- Row 11 of the first sweep on `cxCorpus`. -/
theorem cxRowEq11 :
    sweepRow cxCorpus 1 (initialRank cxCorpus) (cxCorpus.get ⟨11, by decide⟩)
      = cxR.get ⟨11, by decide⟩ := by decide

/-- Row 12 of the first sweep on `cxCorpus`. -/
theorem cxRowEq12 :
    sweepRow cxCorpus 1 (initialRank cxCorpus) (cxCorpus.get ⟨12, by decide⟩)
      = cxR.get ⟨12, by decide⟩ := by decide

/-- Row 13 of the first sweep on `cxCorpus`. -/
theorem cxRowEq13 :
    sweepRow cxCorpus 1 (initialRank cxCorpus) (cxCorpus.get ⟨13, by decide⟩)
      = cxR.get ⟨13, by decide⟩ := by decide

/-- Row 14 of the first sweep on `cxCorpus`. -/
theorem cxRowEq14 :
    sweepRow cxCorpus 1 (initialRank cxCorpus) (cxCorpus.get ⟨14, by decide⟩)
      = cxR.get ⟨14, by decide⟩ := by decide

/-- Row 15 of the first sweep on `cxCorpus`. -/
theorem cxRowEq15 :
    sweepRow cxCorpus 1 (initialRank cxCorpus) (cxCorpus.get ⟨15, by decide⟩)
      = cxR.get ⟨15, by decide⟩ := by decide

/-- Row 16 of the first sweep on `cxCorpus`. -/
theorem cxRowEq16 :
    sweepRow cxCorpus 1 (initialRank cxCorpus) (cxCorpus.get ⟨16, by decide⟩)
      = cxR.get ⟨16, by decide⟩ := by decide

/-- Row 17 of the first sweep on `cxCorpus`. -/
theorem cxRowEq17 :
    sweepRow cxCorpus 1 (initialRank cxCorpus) (cxCorpus.get ⟨17, by decide⟩)
      = cxR.get ⟨17, by decide⟩ := by decide

/-- Row 18 of the first sweep on `cxCorpus`. -/
theorem cxRowEq18 :
    sweepRow cxCorpus 1 (initialRank cxCorpus) (cxCorpus.get ⟨18, by decide⟩)
      = cxR.get ⟨18, by decide⟩ := by decide

/-- Row 19 of the first sweep on `cxCorpus`. -/
theorem cxRowEq19 :
    sweepRow cxCorpus 1 (initialRank cxCorpus) (cxCorpus.get ⟨19, by decide⟩)
      = cxR.get ⟨19, by decide⟩ := by decide

/-- Row 20 of the first sweep on `cxCorpus`. -/
theorem cxRowEq20 :
    sweepRow cxCorpus 1 (initialRank cxCorpus) (cxCorpus.get ⟨20, by decide⟩)
      = cxR.get ⟨20, by decide⟩ := by decide

/-- Row 21 of the first sweep on `cxCorpus`. -/
theorem cxRowEq21 :
    sweepRow cxCorpus 1 (initialRank cxCorpus) (cxCorpus.get ⟨21, by decide⟩)
      = cxR.get ⟨21, by decide⟩ := by decide

/-- Row 22 of the first sweep on `cxCorpus`. -/
theorem cxRowEq22 :
    sweepRow cxCorpus 1 (initialRank cxCorpus) (cxCorpus.get ⟨22, by decide⟩)
      = cxR.get ⟨22, by decide⟩ := by decide

/-- Row 23 of the first sweep on `cxCorpus`. -/
theorem cxRowEq23 :
    sweepRow cxCorpus 1 (initialRank cxCorpus) (cxCorpus.get ⟨23, by decide⟩)
      = cxR.get ⟨23, by decide⟩ := by decide

/-- Row 24 of the first sweep on `cxCorpus`. -/
theorem cxRowEq24 :
    sweepRow cxCorpus 1 (initialRank cxCorpus) (cxCorpus.get ⟨24, by decide⟩)
      = cxR.get ⟨24, by decide⟩ := by decide

/-- Row 25 of the first sweep on `cxCorpus`. -/
theorem cxRowEq25 :
    sweepRow cxCorpus 1 (initialRank cxCorpus) (cxCorpus.get ⟨25, by decide⟩)
      = cxR.get ⟨25, by decide⟩ := by decide

/-- Row 26 of the first sweep on `cxCorpus`. -/
theorem cxRowEq26 :
    sweepRow cxCorpus 1 (initialRank cxCorpus) (cxCorpus.get ⟨26, by decide⟩)
      = cxR.get ⟨26, by decide⟩ := by decide

/-- Row 27 of the first sweep on `cxCorpus`. -/
theorem cxRowEq27 :
    sweepRow cxCorpus 1 (initialRank cxCorpus) (cxCorpus.get ⟨27, by decide⟩)
      = cxR.get ⟨27, by decide⟩ := by decide

/-- Row 28 of the first sweep on `cxCorpus`. -/
theorem cxRowEq28 :
    sweepRow cxCorpus 1 (initialRank cxCorpus) (cxCorpus.get ⟨28, by decide⟩)
      = cxR.get ⟨28, by decide⟩ := by decide

/-- Row 29 of the first sweep on `cxCorpus`. -/
theorem cxRowEq29 :
    sweepRow cxCorpus 1 (initialRank cxCorpus) (cxCorpus.get ⟨29, by decide⟩)
      = cxR.get ⟨29, by decide⟩ := by decide

/-- Row 30 of the first sweep on `cxCorpus`. -/
theorem cxRowEq30 :
    sweepRow cxCorpus 1 (initialRank cxCorpus) (cxCorpus.get ⟨30, by decide⟩)
      = cxR.get ⟨30, by decide⟩ := by decide

/-- Row 31 of the first sweep on `cxCorpus`. -/
theorem cxRowEq31 :
    sweepRow cxCorpus 1 (initialRank cxCorpus) (cxCorpus.get ⟨31, by decide⟩)
      = cxR.get ⟨31, by decide⟩ := by decide

/-- Row 32 of the first sweep on `cxCorpus`. -/
theorem cxRowEq32 :
    sweepRow cxCorpus 1 (initialRank cxCorpus) (cxCorpus.get ⟨32, by decide⟩)
      = cxR.get ⟨32, by decide⟩ := by decide

/-- Row 33 of the first sweep on `cxCorpus`. -/
theorem cxRowEq33 :
    sweepRow cxCorpus 1 (initialRank cxCorpus) (cxCorpus.get ⟨33, by decide⟩)
      = cxR.get ⟨33, by decide⟩ := by decide

/-- Row 34 of the first sweep on `cxCorpus`. -/
theorem cxRowEq34 :
    sweepRow cxCorpus 1 (initialRank cxCorpus) (cxCorpus.get ⟨34, by decide⟩)
      = cxR.get ⟨34, by decide⟩ := by decide

/-- Row 35 of the first sweep on `cxCorpus`. -/
theorem cxRowEq35 :
    sweepRow cxCorpus 1 (initialRank cxCorpus) (cxCorpus.get ⟨35, by decide⟩)
      = cxR.get ⟨35, by decide⟩ := by decide

/-- Row 36 of the first sweep on `cxCorpus`. -/
theorem cxRowEq36 :
    sweepRow cxCorpus 1 (initialRank cxCorpus) (cxCorpus.get ⟨36, by decide⟩)
      = cxR.get ⟨36, by decide⟩ := by decide

/-- Row 37 of the first sweep on `cxCorpus`. -/
theorem cxRowEq37 :
    sweepRow cxCorpus 1 (initialRank cxCorpus) (cxCorpus.get ⟨37, by decide⟩)
      = cxR.get ⟨37, by decide⟩ := by decide

/-- Row 38 of the first sweep on `cxCorpus`. -/
theorem cxRowEq38 :
    sweepRow cxCorpus 1 (initialRank cxCorpus) (cxCorpus.get ⟨38, by decide⟩)
      = cxR.get ⟨38, by decide⟩ := by decide

/-- Row 39 of the first sweep on `cxCorpus`. -/
theorem cxRowEq39 :
    sweepRow cxCorpus 1 (initialRank cxCorpus) (cxCorpus.get ⟨39, by decide⟩)
      = cxR.get ⟨39, by decide⟩ := by decide

/-- Row 40 of the first sweep on `cxCorpus`. -/
theorem cxRowEq40 :
    sweepRow cxCorpus 1 (initialRank cxCorpus) (cxCorpus.get ⟨40, by decide⟩)
      = cxR.get ⟨40, by decide⟩ := by decide

/-- Row 41 of the first sweep on `cxCorpus`. -/
theorem cxRowEq41 :
    sweepRow cxCorpus 1 (initialRank cxCorpus) (cxCorpus.get ⟨41, by decide⟩)
      = cxR.get ⟨41, by decide⟩ := by decide

/-- Row 42 of the first sweep on `cxCorpus`. -/
theorem cxRowEq42 :
    sweepRow cxCorpus 1 (initialRank cxCorpus) (cxCorpus.get ⟨42, by decide⟩)
      = cxR.get ⟨42, by decide⟩ := by decide

/-- Row 43 of the first sweep on `cxCorpus`. -/
theorem cxRowEq43 :
    sweepRow cxCorpus 1 (initialRank cxCorpus) (cxCorpus.get ⟨43, by decide⟩)
      = cxR.get ⟨43, by decide⟩ := by decide

/-- Row 44 of the first sweep on `cxCorpus`. -/
theorem cxRowEq44 :
    sweepRow cxCorpus 1 (initialRank cxCorpus) (cxCorpus.get ⟨44, by decide⟩)
      = cxR.get ⟨44, by decide⟩ := by decide

/-- Row 45 of the first sweep on `cxCorpus`. -/
theorem cxRowEq45 :
    sweepRow cxCorpus 1 (initialRank cxCorpus) (cxCorpus.get ⟨45, by decide⟩)
      = cxR.get ⟨45, by decide⟩ := by decide

/-- Row 46 of the first sweep on `cxCorpus`. -/
theorem cxRowEq46 :
    sweepRow cxCorpus 1 (initialRank cxCorpus) (cxCorpus.get ⟨46, by decide⟩)
      = cxR.get ⟨46, by decide⟩ := by decide

/-- Row 47 of the first sweep on `cxCorpus`. -/
theorem cxRowEq47 :
    sweepRow cxCorpus 1 (initialRank cxCorpus) (cxCorpus.get ⟨47, by decide⟩)
      = cxR.get ⟨47, by decide⟩ := by decide

/-- Row 48 of the first sweep on `cxCorpus`. -/
theorem cxRowEq48 :
    sweepRow cxCorpus 1 (initialRank cxCorpus) (cxCorpus.get ⟨48, by decide⟩)
      = cxR.get ⟨48, by decide⟩ := by decide

/-- Row 49 of the first sweep on `cxCorpus`. -/
theorem cxRowEq49 :
    sweepRow cxCorpus 1 (initialRank cxCorpus) (cxCorpus.get ⟨49, by decide⟩)
      = cxR.get ⟨49, by decide⟩ := by decide

/-- The first sweep on `cxCorpus` at damping 1 equals the explicit mapping
`cxR`, assembled row by row. -/
theorem cxSweepEq : sweep cxCorpus 1 (initialRank cxCorpus) = cxR := by
  apply List.ext_get
  · decide
  intro n h1 h2
  have h50 : (sweep cxCorpus 1 (initialRank cxCorpus)).length = 50 := by decide
  have hn : n < 50 := h50 ▸ h1
  interval_cases n
  · exact cxRowEq0
  · exact cxRowEq1
  · exact cxRowEq2
  · exact cxRowEq3
  · exact cxRowEq4
  · exact cxRowEq5
  · exact cxRowEq6
  · exact cxRowEq7
  · exact cxRowEq8
  · exact cxRowEq9
  · exact cxRowEq10
  · exact cxRowEq11
  · exact cxRowEq12
  · exact cxRowEq13
  · exact cxRowEq14
  · exact cxRowEq15
  · exact cxRowEq16
  · exact cxRowEq17
  · exact cxRowEq18
  · exact cxRowEq19
  · exact cxRowEq20
  · exact cxRowEq21
  · exact cxRowEq22
  · exact cxRowEq23
  · exact cxRowEq24
  · exact cxRowEq25
  · exact cxRowEq26
  · exact cxRowEq27
  · exact cxRowEq28
  · exact cxRowEq29
  · exact cxRowEq30
  · exact cxRowEq31
  · exact cxRowEq32
  · exact cxRowEq33
  · exact cxRowEq34
  · exact cxRowEq35
  · exact cxRowEq36
  · exact cxRowEq37
  · exact cxRowEq38
  · exact cxRowEq39
  · exact cxRowEq40
  · exact cxRowEq41
  · exact cxRowEq42
  · exact cxRowEq43
  · exact cxRowEq44
  · exact cxRowEq45
  · exact cxRowEq46
  · exact cxRowEq47
  · exact cxRowEq48
  · exact cxRowEq49

/-- C6 (counterexample): on `cxCorpus` at damping factor 1 the loop stops at
its first sweep (every page moved by exactly `1/1000`, within tolerance), and
returns `cxR`; but `cxR` is not a fixed point to tolerance: one further sweep
moves page "0" by `21/20000 > 1/1000`, so `converged` fails on the returned
mapping. -/
theorem iterate_pagerank_not_fixed_point_cx :
    iterate_pagerank cxCorpus 1 3 = some cxR
    ∧ converged cxR (sweep cxCorpus 1 cxR) = false := by
  have hB : converged (initialRank cxCorpus) cxR = true := by decide
  constructor
  · show iterateLoop cxCorpus 1 3 (initialRank cxCorpus) = some cxR
    rw [show iterateLoop cxCorpus 1 3 (initialRank cxCorpus)
        = (if converged (initialRank cxCorpus) (sweep cxCorpus 1 (initialRank cxCorpus))
           then some (sweep cxCorpus 1 (initialRank cxCorpus))
           else iterateLoop cxCorpus 1 2 (sweep cxCorpus 1 (initialRank cxCorpus)))
        from rfl]
    rw [cxSweepEq, hB]
    simp
  · decide

/-- A successful dictionary lookup returns an entry of the dictionary. -/
theorem lookup_mem {β : Type} {l : List (Page × β)} {k : Page} {v : β}
    (h : List.lookup k l = some v) : (k, v) ∈ l := by
  induction l with
  | nil => simp [List.lookup] at h
  | cons a l ih =>
    obtain ⟨a1, a2⟩ := a
    by_cases hk : k = a1
    · subst hk
      simp only [List.lookup, beq_self_eq_true] at h
      simp only [Option.some.injEq] at h
      subst h
      exact List.mem_cons_self _ _
    · simp only [List.lookup, beq_eq_false_iff_ne.mpr hk] at h
      exact List.mem_cons_of_mem _ (ih h)

/-- Summing a pointwise sum of two functions over a list. -/
theorem sum_map_add {α : Type} (l : List α) (f g : α → ℚ) :
    (l.map (fun x => f x + g x)).sum = (l.map f).sum + (l.map g).sum := by
  induction l with
  | nil => simp
  | cons a l ih => simp [ih]; ring

/-- Summing a constant over a list. -/
theorem sum_map_const {α : Type} (l : List α) (c : ℚ) :
    (l.map (fun _ => c)).sum = (l.length : ℚ) * c := by
  induction l with
  | nil => simp
  | cons a l ih => simp [ih]; ring

/-- Summing an indicator of membership in the duplicate-free list `s` over a
duplicate-free list that contains all of `s` counts every element of `s`
exactly once. -/
theorem sum_map_indicator (ks : List Page) (s : List Page) (c : ℚ)
    (hnd : ks.Nodup) (hsnd : s.Nodup) (hsub : ∀ x ∈ s, x ∈ ks) :
    (ks.map (fun k => if k ∈ s then c else 0)).sum = (s.length : ℚ) * c := by
  induction ks generalizing s with
  | nil =>
    have : s = [] := by
      cases s with
      | nil => rfl
      | cons a s => exact absurd (hsub a (List.mem_cons_self a s)) (List.not_mem_nil a)
    simp [this]
  | cons k ks ih =>
    obtain ⟨hk, hnd'⟩ := List.nodup_cons.mp hnd
    by_cases hmem : k ∈ s
    · have hrest : (ks.map (fun x => if x ∈ s then c else 0)).sum
          = (ks.map (fun x => if x ∈ s.erase k then c else 0)).sum := by
        apply congrArg
        apply List.map_congr_left
        intro x hx
        have hxk : x ≠ k := fun h => hk (h ▸ hx)
        simp [hsnd.mem_erase_iff, hxk]
      have hsub' : ∀ x ∈ s.erase k, x ∈ ks := by
        intro x hx
        obtain ⟨hxk, hxs⟩ := hsnd.mem_erase_iff.mp hx
        rcases List.mem_cons.mp (hsub x hxs) with h | h
        · exact absurd h hxk
        · exact h
      have hpos : 0 < s.length := List.length_pos.mpr (fun he => by
        rw [he] at hmem
        exact List.not_mem_nil k hmem)
      have hcard : s.length = (s.erase k).length + 1 := by
        rw [List.length_erase_of_mem hmem]
        omega
      simp only [List.map_cons, List.sum_cons, if_pos hmem, hrest,
        ih (s.erase k) hnd' (hsnd.erase k) hsub', hcard]
      push_cast
      ring
    · have hsub' : ∀ x ∈ s, x ∈ ks := by
        intro x hx
        rcases List.mem_cons.mp (hsub x hx) with h | h
        · exact absurd (h ▸ hx) hmem
        · exact h
      simp only [List.map_cons, List.sum_cons, if_neg hmem, ih s hnd' hsnd hsub']
      ring

/-- C1: for a corpus with distinct keys satisfying the closed-universe
invariant, a page that is a key of the corpus, and a damping factor in
`[0,1]`, `transition_model` returns exactly the damped random-surfer
distribution: the uniform `1/N` when the page is dangling, otherwise
`(1-d)/N` for every page plus `d/L` for each outgoing neighbor; the result
keeps every corpus page as a key, has no negative entry, and sums to 1. -/
theorem transition_model_matches_spec (corpus : Corpus) (page : Page)
    (links : List Page) (d : ℚ)
    (hlk : List.lookup page corpus = some links)
    (hlnd : links.Nodup)
    (hnd : (corpus.map Prod.fst).Nodup)
    (hclosed : ∀ kv ∈ corpus, ∀ q ∈ kv.2, q ∈ corpus.map Prod.fst)
    (hd0 : 0 ≤ d) (hd1 : d ≤ 1) :
    transition_model corpus page d
      = some (corpus.map (fun kv => (kv.1, transitionSpecValue corpus.length links d kv.1)))
    ∧ (∀ kv ∈ corpus.map (fun kv => (kv.1, transitionSpecValue corpus.length links d kv.1)),
        0 ≤ kv.2)
    ∧ ((corpus.map (fun kv =>
          (kv.1, transitionSpecValue corpus.length links d kv.1))).map Prod.snd).sum
        = 1 := by
  have hN : corpus ≠ [] := by
    intro h
    rw [h] at hlk
    simp [List.lookup] at hlk
  have hNpos : 0 < corpus.length := List.length_pos.mpr hN
  have hN0 : ¬corpus.length = 0 := by omega
  have hNQ : (0 : ℚ) < (corpus.length : ℚ) := by exact_mod_cast hNpos
  have heq : transition_model corpus page d
      = some (corpus.map (fun kv =>
          (kv.1, transitionSpecValue corpus.length links d kv.1))) := by
    unfold transition_model
    rw [hlk]
    by_cases hc : links.length = 0
    · simp only [hc, if_pos, if_neg hN0, Option.some.injEq]
      apply List.map_congr_left
      intro kv _
      simp [transitionSpecValue, hc]
    · have hLQ : (0 : ℚ) < (links.length : ℚ) := by
        exact_mod_cast Nat.pos_of_ne_zero hc
      simp only [if_neg hc, Option.some.injEq]
      apply List.map_congr_left
      intro kv _
      simp only [transitionSpecValue, if_neg hc, Prod.mk.injEq, true_and]
      by_cases hm : kv.1 ∈ links
      · rw [if_pos hm, if_pos hm]
        field_simp
        ring
      · rw [if_neg hm, if_neg hm]
        ring
  refine ⟨heq, ?_, ?_⟩
  · intro kv hkv
    obtain ⟨x, _, hx⟩ := List.mem_map.mp hkv
    have hv : kv.2 = transitionSpecValue corpus.length links d x.1 := by
      rw [← hx]
    rw [hv]
    unfold transitionSpecValue
    by_cases hc : links.length = 0
    · rw [if_pos hc]
      positivity
    · have hLQ : (0 : ℚ) < (links.length : ℚ) := by
        exact_mod_cast Nat.pos_of_ne_zero hc
      rw [if_neg hc]
      have h1 : 0 ≤ (1 - d) / (corpus.length : ℚ) := by
        apply div_nonneg (by linarith) (le_of_lt hNQ)
      by_cases hm : page ∈ links
      all_goals {
        by_cases hmx : x.1 ∈ links
        · rw [if_pos hmx]
          have : 0 ≤ d / (links.length : ℚ) := div_nonneg hd0 (le_of_lt hLQ)
          linarith
        · rw [if_neg hmx]
          linarith
      }
  · have hmapmap : ((corpus.map
        (fun kv => (kv.1, transitionSpecValue corpus.length links d kv.1))).map Prod.snd)
        = corpus.map (fun kv => transitionSpecValue corpus.length links d kv.1) := by
      rw [List.map_map]
      rfl
    rw [hmapmap]
    by_cases hc : links.length = 0
    · have : (corpus.map (fun kv => transitionSpecValue corpus.length links d kv.1))
          = corpus.map (fun _ => 1 / (corpus.length : ℚ)) := by
        apply List.map_congr_left
        intro kv _
        simp [transitionSpecValue, hc]
      rw [this, sum_map_const]
      field_simp
    · have hLQ : (0 : ℚ) < (links.length : ℚ) := by
        exact_mod_cast Nat.pos_of_ne_zero hc
      have hsplit : (corpus.map (fun kv => transitionSpecValue corpus.length links d kv.1))
          = corpus.map (fun kv => (1 - d) / (corpus.length : ℚ)
              + (if kv.1 ∈ links then d / (links.length : ℚ) else 0)) := by
        apply List.map_congr_left
        intro kv _
        simp [transitionSpecValue, hc]
      rw [hsplit, sum_map_add, sum_map_const]
      have hind : (corpus.map
          (fun kv => if kv.1 ∈ links then d / (links.length : ℚ) else 0)).sum
          = (links.length : ℚ) * (d / (links.length : ℚ)) := by
        have hmm : (corpus.map
            (fun kv => if kv.1 ∈ links then d / (links.length : ℚ) else 0))
            = ((corpus.map Prod.fst).map
              (fun k => if k ∈ links then d / (links.length : ℚ) else 0)) := by
          rw [List.map_map]
          rfl
        rw [hmm]
        apply sum_map_indicator _ _ _ hnd hlnd
        intro x hx
        exact hclosed _ (lookup_mem hlk) x hx
      rw [hind]
      field_simp

/-- Witness for C1 at the two-page cycle corpus, page "a.html", damping
`17/20`. -/
theorem transition_model_matches_spec_witness :
    (transition_model [("a.html", ["b.html"]), ("b.html", ["a.html"])]
        "a.html" (17/20)
      = some (([("a.html", ["b.html"]), ("b.html", ["a.html"])] : Corpus).map
          (fun kv => (kv.1,
            transitionSpecValue 2 ["b.html"] (17/20) kv.1))))
    ∧ (∀ kv ∈ ([("a.html", ["b.html"]), ("b.html", ["a.html"])] : Corpus).map
          (fun kv => (kv.1, transitionSpecValue 2 ["b.html"] (17/20) kv.1)),
        0 ≤ kv.2)
    ∧ ((([("a.html", ["b.html"]), ("b.html", ["a.html"])] : Corpus).map
          (fun kv => (kv.1, transitionSpecValue 2 ["b.html"] (17/20) kv.1))).map
            Prod.snd).sum = 1 :=
  transition_model_matches_spec
    [("a.html", ["b.html"]), ("b.html", ["a.html"])] "a.html"
    ["b.html"] (17/20) (by decide) (by decide) (by decide) (by decide) (by decide)
    (by decide)

/-- Auxiliary: a constant factors out of a mapped sum. -/
theorem sum_map_mul_left {α : Type} (l : List α) (f : α → ℚ) (c : ℚ) :
    (l.map (fun x => c * f x)).sum = c * (l.map f).sum := by
  induction l with
  | nil => simp
  | cons a l ih => simp only [List.map_cons, List.sum_cons, ih]; ring

/-- Auxiliary: a fold that accumulates additions equals the start value plus
the sum of the mapped list. -/
theorem foldl_add_eq {α : Type} (l : List α) (f : α → ℚ) (c : ℚ) :
    l.foldl (fun acc x => acc + f x) c = c + (l.map f).sum := by
  induction l generalizing c with
  | nil => simp
  | cons a l ih => simp [ih]; ring

/-- C2: each sweep of `iterate_pagerank` computes, for every corpus page `p`
(in corpus order), exactly
`new_rank(p) = (1-d)/N + d * Σ over entries (q, links) with p ∈ links of
old_rank(q)/|links|`, every term read from the same prior-iteration snapshot
`old`; dangling pages contribute to no page's sum (membership `p ∈ links`
fails for an empty link set), and the loop of `iterate_pagerank` applies
exactly this map to the previous mapping at every step. -/
theorem sweep_matches_spec (corpus : Corpus) (d : ℚ) (old : RankDist) :
    sweep corpus d old
      = corpus.map (fun kv =>
          (kv.1, newRankSpec corpus d (fun q => (List.lookup q old).getD 0) kv.1))
    ∧ (∀ fuel, iterateLoop corpus d (fuel + 1) old
        = if converged old (sweep corpus d old) then some (sweep corpus d old)
          else iterateLoop corpus d fuel (sweep corpus d old)) := by
  constructor
  · unfold sweep sweepRow newRankSpec
    apply List.map_congr_left
    intro kv _
    simp only [Prod.mk.injEq, true_and]
    rw [foldl_add_eq, sum_map_mul_left]
  · intro fuel
    rfl

/-- C8 (amended): `sample_pagerank` performs no validation and raises no
`InvalidArgument`: it fails — by an uncaught error — exactly when the corpus
is empty with `n > 0` (`IndexError` from `random.choice` on an empty
population) or the corpus is non-empty with `n = 0` (`ZeroDivisionError` in
the normalization); for a negative sample count on a non-empty corpus it
does not fail at all but returns the all-zero mapping (zero trials run, and
each counter is divided by the nonzero `n * N`), and on an empty corpus with
`n ≤ 0` it returns the empty mapping (the normalization comprehension
iterates zero items and never divides). -/
theorem sample_pagerank_invalid_input_behavior (corpus : Corpus) (d : ℚ) (n : ℤ)
    (src : ℕ → ℚ) :
    (sample_pagerank corpus d n src = none
      ↔ ((corpus = [] ∧ 0 < n) ∨ (corpus ≠ [] ∧ n = 0)))
    ∧ (n < 0 → corpus ≠ [] →
        sample_pagerank corpus d n src = some (corpus.map (fun kv => (kv.1, 0))))
    ∧ (corpus = [] → n ≤ 0 → sample_pagerank corpus d n src = some []) := by
  refine ⟨?_, ?_, ?_⟩
  · unfold sample_pagerank
    by_cases h1 : corpus.length = 0 ∧ 0 < n
    · rw [if_pos h1]
      simp only [true_iff]
      exact Or.inl ⟨List.length_eq_zero.mp h1.1, h1.2⟩
    · rw [if_neg h1]
      simp only []
      by_cases h2 : corpus.length ≠ 0 ∧ n = 0
      · rw [if_pos h2]
        simp only [true_iff]
        right
        exact ⟨fun he => h2.1 (by rw [he]; rfl), h2.2⟩
      · rw [if_neg h2]
        simp only [reduceCtorEq, false_iff]
        intro hor
        rcases hor with ⟨hc, hn⟩ | ⟨hc, hn⟩
        · exact h1 ⟨by rw [hc]; rfl, hn⟩
        · exact h2 ⟨fun h => hc (List.length_eq_zero.mp h), hn⟩
  · intro hneg hne
    unfold sample_pagerank
    rw [if_neg (by rintro ⟨-, hpos⟩; omega)]
    simp only []
    rw [if_neg (by rintro ⟨-, h0⟩; omega)]
    have htn : n.toNat = 0 := Int.toNat_eq_zero.mpr (le_of_lt hneg)
    rw [htn]
    simp only [runTrials, List.map_map]
    congr 1
    apply List.map_congr_left
    intro kv _
    simp
  · intro hc hn0
    subst hc
    unfold sample_pagerank
    rw [if_neg (by rintro ⟨-, hpos⟩; omega)]
    simp only []
    rw [if_neg (by rintro ⟨hne, -⟩; exact hne rfl)]
    have htn : n.toNat = 0 := Int.toNat_eq_zero.mpr hn0
    rw [htn]
    rfl

/-- Witness for C8's amended statement at the one-page corpus with `n = -1`. -/
theorem sample_pagerank_invalid_input_behavior_witness :
    sample_pagerank [("1.html", ([] : List Page))] (17/20) (-1) (fun _ => 0)
      = some (([("1.html", ([] : List Page))] : Corpus).map (fun kv => (kv.1, 0))) :=
  (sample_pagerank_invalid_input_behavior [("1.html", ([] : List Page))] (17/20) (-1)
    (fun _ => 0)).2.1 (by decide) (by decide)

/-- C7 (amended): querying `transition_model` with a page that is not a key
of the corpus raises no error of its own: on a non-empty corpus the
`corpus.get(page) is None` branch treats the absent page exactly like a
dangling one and returns the uniform distribution `1/N` over all corpus
pages; only on an empty corpus does the call fail, with the
`ZeroDivisionError` that every `transition_model` call on an empty corpus
raises. -/
theorem transition_model_absent_page_uniform (corpus : Corpus) (page : Page) (d : ℚ)
    (h : List.lookup page corpus = none) :
    (corpus ≠ [] → transition_model corpus page d
        = some (corpus.map (fun kv => (kv.1, 1 / (corpus.length : ℚ)))))
    ∧ (corpus = [] → transition_model corpus page d = none) := by
  constructor
  · intro hne
    have h0 : ¬corpus.length = 0 := fun h0 => hne (List.length_eq_zero.mp h0)
    simp only [transition_model, h, if_neg h0]
  · intro he
    subst he
    rfl

/-- Witness for C7's amended statement: page "c.html" absent from a two-page
corpus. -/
theorem transition_model_absent_page_uniform_witness :
    transition_model [("a.html", ["b.html"]), ("b.html", [])] "c.html" (3/10)
      = some (([("a.html", ["b.html"]), ("b.html", [])] : Corpus).map
          (fun kv => (kv.1, 1 / ((2 : ℕ) : ℚ)))) :=
  (transition_model_absent_page_uniform
    [("a.html", ["b.html"]), ("b.html", [])] "c.html" (3/10) (by decide)).1 (by decide)

/-- A dictionary whose values are all non-negative yields a non-negative
defaulted lookup. -/
theorem lookup_getD_nonneg (old : RankDist) (q : Page)
    (h : ∀ kv ∈ old, 0 ≤ kv.2) : 0 ≤ (List.lookup q old).getD 0 := by
  cases hlk : List.lookup q old with
  | none => simp
  | some v =>
    simpa using h _ (lookup_mem hlk)

/-- Every value produced by one sweep is at least the teleport term
`(1-d)/N`, provided the previous mapping is non-negative. -/
theorem sweep_lower_bound (corpus : Corpus) (d : ℚ) (old : RankDist)
    (hd0 : 0 ≤ d) (hold : ∀ kv ∈ old, 0 ≤ kv.2) :
    ∀ kv ∈ sweep corpus d old, (1 - d) / (corpus.length : ℚ) ≤ kv.2 := by
  intro kv hkv
  unfold sweep at hkv
  obtain ⟨x, hx, hkv'⟩ := List.mem_map.mp hkv
  have hval : kv.2 = corpus.foldl
      (fun acc qkv =>
        acc + d * (if x.1 ∈ qkv.2 then ((List.lookup qkv.1 old).getD 0) / (qkv.2.length : ℚ)
                   else 0))
      ((1 - d) / (corpus.length : ℚ)) := by
    rw [← hkv']
    rfl
  rw [hval, foldl_add_eq]
  have hsum : 0 ≤ (corpus.map (fun qkv =>
      d * (if x.1 ∈ qkv.2 then ((List.lookup qkv.1 old).getD 0) / (qkv.2.length : ℚ)
           else 0))).sum := by
    apply List.sum_nonneg
    intro a ha
    obtain ⟨qkv, _, hq⟩ := List.mem_map.mp ha
    rw [← hq]
    apply mul_nonneg hd0
    by_cases hm : x.1 ∈ qkv.2
    · rw [if_pos hm]
      exact div_nonneg (lookup_getD_nonneg old qkv.1 hold) (by positivity)
    · rw [if_neg hm]
  linarith

/-- One sweep keeps the mapping non-negative when `0 ≤ d ≤ 1`. -/
theorem sweep_nonneg (corpus : Corpus) (d : ℚ) (old : RankDist)
    (hd0 : 0 ≤ d) (hd1 : d ≤ 1) (hold : ∀ kv ∈ old, 0 ≤ kv.2) :
    ∀ kv ∈ sweep corpus d old, 0 ≤ kv.2 := by
  intro kv hkv
  have hbase : (0 : ℚ) ≤ (1 - d) / (corpus.length : ℚ) := by
    apply div_nonneg (by linarith) (by positivity)
  exact le_trans hbase (sweep_lower_bound corpus d old hd0 hold kv hkv)

/-- The loop of `iterate_pagerank` only ever returns a mapping bounded below
by the teleport term, as long as it starts from a non-negative mapping. -/
theorem iterateLoop_lower_bound (corpus : Corpus) (d : ℚ)
    (hd0 : 0 ≤ d) (hd1 : d ≤ 1) :
    ∀ (fuel : ℕ) (old r : RankDist), (∀ kv ∈ old, 0 ≤ kv.2) →
      iterateLoop corpus d fuel old = some r →
      ∀ kv ∈ r, (1 - d) / (corpus.length : ℚ) ≤ kv.2 := by
  intro fuel
  induction fuel with
  | zero =>
    intro old r hold hr
    simp [iterateLoop] at hr
  | succ fuel ih =>
    intro old r hold hr
    simp only [iterateLoop] at hr
    by_cases hc : converged old (sweep corpus d old)
    · rw [if_pos hc] at hr
      obtain rfl : sweep corpus d old = r := Option.some.injEq _ _ ▸ hr
      exact sweep_lower_bound corpus d old hd0 hold
    · rw [if_neg hc] at hr
      exact ih (sweep corpus d old) r (sweep_nonneg corpus d old hd0 hd1 hold) hr

/-- C10: whenever `iterate_pagerank` returns at damping `d ∈ [0,1]`, every
returned value is at least the teleport term `(1-d)/N`; the same lower bound
holds for the mapping produced by any single sweep of a non-negative
mapping; and for `d < 1` on a non-empty corpus every returned rank is
strictly positive. -/
theorem iterate_pagerank_rank_lower_bound (corpus : Corpus) (d : ℚ) (fuel : ℕ)
    (r : RankDist) (hd0 : 0 ≤ d) (hd1 : d ≤ 1)
    (hr : iterate_pagerank corpus d fuel = some r) :
    (∀ kv ∈ r, (1 - d) / (corpus.length : ℚ) ≤ kv.2)
    ∧ (∀ old : RankDist, (∀ kv ∈ old, 0 ≤ kv.2) →
        ∀ kv ∈ sweep corpus d old, (1 - d) / (corpus.length : ℚ) ≤ kv.2)
    ∧ (d < 1 → corpus ≠ [] → ∀ kv ∈ r, 0 < kv.2) := by
  have hinit : ∀ kv ∈ initialRank corpus, 0 ≤ kv.2 := by
    intro kv hkv
    unfold initialRank at hkv
    obtain ⟨x, _, hx⟩ := List.mem_map.mp hkv
    rw [← hx]
    positivity
  have hmain := iterateLoop_lower_bound corpus d hd0 hd1 fuel (initialRank corpus) r hinit hr
  refine ⟨hmain, fun old hold => sweep_lower_bound corpus d old hd0 hold, ?_⟩
  intro hdlt hne kv hkv
  have hNpos : 0 < corpus.length := List.length_pos.mpr hne
  have hbase : (0 : ℚ) < (1 - d) / (corpus.length : ℚ) := by
    apply div_pos (by linarith)
    exact_mod_cast hNpos
  exact lt_of_lt_of_le hbase (hmain kv hkv)

/-- Witness for C10 at the two-page cycle corpus, damping `17/20`. -/
theorem iterate_pagerank_rank_lower_bound_witness :
    (∀ kv ∈ ([("a.html", (1/2 : ℚ)), ("b.html", 1/2)] : RankDist),
      (1 - 17/20) / ((2 : ℕ) : ℚ) ≤ kv.2)
    ∧ (∀ old : RankDist, (∀ kv ∈ old, 0 ≤ kv.2) →
        ∀ kv ∈ sweep [("a.html", ["b.html"]), ("b.html", ["a.html"])]
            (17/20) old,
          (1 - 17/20) / ((2 : ℕ) : ℚ) ≤ kv.2)
    ∧ ((17/20 : ℚ) < 1 →
        ([("a.html", ["b.html"]), ("b.html", ["a.html"])] : Corpus) ≠ [] →
        ∀ kv ∈ ([("a.html", (1/2 : ℚ)), ("b.html", 1/2)] : RankDist), 0 < kv.2) :=
  iterate_pagerank_rank_lower_bound
    [("a.html", ["b.html"]), ("b.html", ["a.html"])] (17/20) 3
    [("a.html", 1/2), ("b.html", 1/2)] (by decide) (by decide) (by decide)

/-- Shifting the start of a sweep chain by one application. -/
theorem sweeps_shift (corpus : Corpus) (d : ℚ) (x0 : RankDist) :
    ∀ j, sweeps corpus d x0 (j + 1) = sweeps corpus d (sweep corpus d x0) j := by
  intro j
  induction j with
  | zero => rfl
  | succ j ih =>
    show sweep corpus d (sweeps corpus d x0 (j + 1))
        = sweep corpus d (sweeps corpus d (sweep corpus d x0) j)
    rw [ih]

/-- The loop returns the first iterate of the sweep chain whose predecessor
is within tolerance of it. -/
theorem iterateLoop_first_converged (corpus : Corpus) (d : ℚ) :
    ∀ (fuel : ℕ) (x0 r : RankDist), iterateLoop corpus d fuel x0 = some r →
      ∃ k, 1 ≤ k ∧ k ≤ fuel
        ∧ r = sweeps corpus d x0 k
        ∧ converged (sweeps corpus d x0 (k - 1)) (sweeps corpus d x0 k) = true
        ∧ ∀ j, 1 ≤ j → j < k →
            converged (sweeps corpus d x0 (j - 1)) (sweeps corpus d x0 j) = false := by
  intro fuel
  induction fuel with
  | zero =>
    intro x0 r hr
    simp [iterateLoop] at hr
  | succ fuel ih =>
    intro x0 r hr
    simp only [iterateLoop] at hr
    by_cases hc : converged x0 (sweep corpus d x0)
    · rw [if_pos hc] at hr
      have hrw : sweep corpus d x0 = r := Option.some.injEq _ _ ▸ hr
      refine ⟨1, le_refl 1, by omega, ?_, ?_, ?_⟩
      · rw [← hrw]
        rfl
      · show converged (sweeps corpus d x0 0) (sweeps corpus d x0 1) = true
        exact hc
      · intro j hj1 hj2
        omega
    · rw [if_neg hc] at hr
      obtain ⟨k, hk1, hk2, hk3, hk4, hk5⟩ := ih (sweep corpus d x0) r hr
      refine ⟨k + 1, by omega, by omega, ?_, ?_, ?_⟩
      · rw [hk3, sweeps_shift]
      · have h1 : k + 1 - 1 = (k - 1) + 1 := by omega
        rw [h1, sweeps_shift, sweeps_shift]
        have h2 : k - 1 + 1 = k := by omega
        exact h2 ▸ hk4
      · intro j hj1 hj2
        by_cases hj : j = 1
        · subst hj
          show converged (sweeps corpus d x0 0) (sweeps corpus d x0 1) = false
        
          exact Bool.eq_false_iff.mpr hc
        · have hj2' : 2 ≤ j := by omega
          have h1 : j - 1 = (j - 2) + 1 := by omega
          have h2 : j = (j - 1) + 1 := by omega
          rw [h1]
          conv_lhs =>
            rw [h2]
          rw [sweeps_shift, sweeps_shift]
          have h4 := hk5 (j - 1) (by omega) (by omega)
          have h5 : j - 1 + 1 - 2 = j - 1 - 1 := by omega
          rw [h5]
          exact h4

/-- C6 (amended): the mapping returned by `iterate_pagerank` is the first
element of the sweep chain (from the uniform initial assignment) whose
per-page absolute difference from its predecessor is at most `1/1000`; it
need not be a tolerance-level fixed point — one further sweep can move a
page by more than `1/1000` (see the separate counterexample). -/
theorem iterate_pagerank_first_converged (corpus : Corpus) (d : ℚ) (fuel : ℕ)
    (r : RankDist) (hr : iterate_pagerank corpus d fuel = some r) :
    ∃ k, 1 ≤ k ∧ k ≤ fuel
      ∧ r = sweeps corpus d (initialRank corpus) k
      ∧ converged (sweeps corpus d (initialRank corpus) (k - 1))
          (sweeps corpus d (initialRank corpus) k) = true
      ∧ ∀ j, 1 ≤ j → j < k →
          converged (sweeps corpus d (initialRank corpus) (j - 1))
            (sweeps corpus d (initialRank corpus) j) = false := by
  unfold iterate_pagerank at hr
  exact iterateLoop_first_converged corpus d fuel (initialRank corpus) r hr

/-- Witness for C6's amended statement at the two-page cycle corpus. -/
theorem iterate_pagerank_first_converged_witness :
    ∃ k, 1 ≤ k ∧ k ≤ 3
      ∧ ([("a.html", (1/2 : ℚ)), ("b.html", 1/2)] : RankDist)
          = sweeps [("a.html", ["b.html"]), ("b.html", ["a.html"])] (17/20)
              (initialRank [("a.html", ["b.html"]), ("b.html", ["a.html"])]) k
      ∧ converged
          (sweeps [("a.html", ["b.html"]), ("b.html", ["a.html"])] (17/20)
            (initialRank [("a.html", ["b.html"]), ("b.html", ["a.html"])])
            (k - 1))
          (sweeps [("a.html", ["b.html"]), ("b.html", ["a.html"])] (17/20)
            (initialRank [("a.html", ["b.html"]), ("b.html", ["a.html"])]) k)
          = true
      ∧ ∀ j, 1 ≤ j → j < k →
          converged
            (sweeps [("a.html", ["b.html"]), ("b.html", ["a.html"])] (17/20)
              (initialRank [("a.html", ["b.html"]), ("b.html", ["a.html"])])
              (j - 1))
            (sweeps [("a.html", ["b.html"]), ("b.html", ["a.html"])] (17/20)
              (initialRank [("a.html", ["b.html"]), ("b.html", ["a.html"])]) j)
            = false :=
  iterate_pagerank_first_converged
    [("a.html", ["b.html"]), ("b.html", ["a.html"])] (17/20) 3
    [("a.html", 1/2), ("b.html", 1/2)] (by decide)

/-- `incr` does not change the keys of the counter dictionary. -/
theorem incr_keys (cnt : List (Page × ℕ)) (p : Page) :
    (incr cnt p).map Prod.fst = cnt.map Prod.fst := by
  unfold incr
  rw [List.map_map]
  apply List.map_congr_left
  intro kv _
  by_cases h : kv.1 = p
  · simp [h]
  · simp [h]

/-- Incrementing a key present in a duplicate-free counter dictionary raises
the total count by exactly one. -/
theorem incr_sum (cnt : List (Page × ℕ)) (p : Page)
    (hnd : (cnt.map Prod.fst).Nodup) (hp : p ∈ cnt.map Prod.fst) :
    ((incr cnt p).map Prod.snd).sum = ((cnt.map Prod.snd)).sum + 1 := by
  induction cnt with
  | nil => simp at hp
  | cons a cnt ih =>
    obtain ⟨hk, hnd'⟩ := List.nodup_cons.mp hnd
    by_cases h : a.1 = p
    · have hrest : incr cnt p = cnt := by
        unfold incr
        conv_rhs => rw [← List.map_id cnt]
        apply List.map_congr_left
        intro kv hkv
        have hne : kv.1 ≠ p := by
          intro he
          exact hk (h ▸ he ▸ List.mem_map_of_mem Prod.fst hkv)
        simp [hne]
      simp only [incr, List.map_cons, if_pos h, List.map_map]
      have : (cnt.map ((fun kv => if kv.1 = p then (kv.1, kv.2 + 1) else kv))).map Prod.snd
          = (incr cnt p).map Prod.snd := rfl
      simp only [List.sum_cons]
      have hr2 : (List.map (Prod.snd ∘ fun kv => if kv.1 = p then (kv.1, kv.2 + 1) else kv) cnt)
          = (incr cnt p).map Prod.snd := by
        rw [incr, List.map_map]
      rw [hr2, hrest]
      omega
    · have hp' : p ∈ cnt.map Prod.fst := by
        rcases List.mem_cons.mp hp with he | he
        · exact absurd he.symm h
        · exact he
      simp only [incr, List.map_cons, if_neg h, List.map_map, List.sum_cons]
      have hr2 : (List.map (Prod.snd ∘ fun kv => if kv.1 = p then (kv.1, kv.2 + 1) else kv) cnt)
          = (incr cnt p).map Prod.snd := by
        rw [incr, List.map_map]
      rw [hr2, ih hnd' hp']
      omega

/-- A defaulted index access within bounds returns a list element. -/
theorem getD_mem {α : Type} : ∀ (l : List α) (i : ℕ) (dft : α), i < l.length →
    l.getD i dft ∈ l := by
  intro l
  induction l with
  | nil => intro i dft h; simp at h
  | cons a l ih =>
    intro i dft h
    cases i with
    | zero => simp [List.getD]
    | succ i =>
      have : l.getD i dft ∈ l := ih i dft (by simpa using h)
      simp only [List.getD_cons_succ]
      exact List.mem_cons_of_mem _ this

/-- The `random.choice` index is in bounds for a non-empty population. -/
theorem uniformIndex_lt (u : ℚ) (n : ℕ) (h : 0 < n) : uniformIndex u n < n := by
  unfold uniformIndex
  omega

/-- The `random.choices` index is in bounds for a non-empty weight list. -/
theorem weightedIndex_lt (ws : List ℚ) (u : ℚ) (h : 0 < ws.length) :
    weightedIndex ws u < ws.length := by
  have hle : weightedIndex ws u ≤ ws.length - 1 := min_le_right _ _
  omega

/-- On a non-empty corpus `transition_model` succeeds and keeps exactly the
corpus keys, in corpus order. -/
theorem transition_model_keys (corpus : Corpus) (page : Page) (d : ℚ)
    (hne : corpus ≠ []) :
    ((transition_model corpus page d).getD []).map Prod.fst = corpus.map Prod.fst := by
  have h0 : ¬corpus.length = 0 := fun h => hne (List.length_eq_zero.mp h)
  cases hl : List.lookup page corpus with
  | none =>
    simp only [transition_model, hl, if_neg h0, Option.getD_some, List.map_map]
    rfl
  | some links =>
    by_cases h : links.length = 0
    · simp only [transition_model, hl, if_pos h, if_neg h0, Option.getD_some, List.map_map]
      rfl
    · simp only [transition_model, hl, if_neg h, Option.getD_some, List.map_map]
      rfl

/-- Through the inner walk of a trial, the counter dictionary keeps the corpus
keys and its total count grows by exactly one per step. -/
theorem walkSteps_keys_sum (corpus : Corpus) (d : ℚ) (src : ℕ → ℚ)
    (hne : corpus ≠ []) (hnd : (corpus.map Prod.fst).Nodup) :
    ∀ (m t : ℕ) (cur : Page) (cnt : List (Page × ℕ)),
      cnt.map Prod.fst = corpus.map Prod.fst →
      (walkSteps corpus d src m t cur cnt).1.map Prod.fst = corpus.map Prod.fst
      ∧ ((walkSteps corpus d src m t cur cnt).1.map Prod.snd).sum
          = (cnt.map Prod.snd).sum + m := by
  intro m
  induction m with
  | zero =>
    intro t cur cnt hk
    exact ⟨hk, by simp [walkSteps]⟩
  | succ m ih =>
    intro t cur cnt hk
    have hNpos : 0 < corpus.length := List.length_pos.mpr hne
    have hkeys : ((transition_model corpus cur d).getD []).map Prod.fst = corpus.map Prod.fst :=
      transition_model_keys corpus cur d hne
    have hplen : (((transition_model corpus cur d).getD []).map Prod.snd).length = corpus.length := by
      rw [List.length_map]
      have := congrArg List.length hkeys
      rw [List.length_map, List.length_map] at this
      exact this
    have hflen : (((transition_model corpus cur d).getD []).map Prod.fst).length = corpus.length := by
      rw [hkeys, List.length_map]
    have hidx : weightedIndex (((transition_model corpus cur d).getD []).map Prod.snd) (src t)
        < (((transition_model corpus cur d).getD []).map Prod.fst).length := by
      rw [hflen]
      rw [← hplen]
      exact weightedIndex_lt _ _ (by rw [hplen]; exact hNpos)
    have hnxt : (((transition_model corpus cur d).getD []).map Prod.fst).getD
        (weightedIndex (((transition_model corpus cur d).getD []).map Prod.snd) (src t)) ""
        ∈ corpus.map Prod.fst := by
      rw [← hkeys]
      exact getD_mem _ _ _ hidx
    have hk2 : (incr cnt ((((transition_model corpus cur d).getD []).map Prod.fst).getD
        (weightedIndex (((transition_model corpus cur d).getD []).map Prod.snd) (src t)) "")).map
          Prod.fst = corpus.map Prod.fst := by
      rw [incr_keys, hk]
    have hstep := ih (t + 1)
      ((((transition_model corpus cur d).getD []).map Prod.fst).getD
        (weightedIndex (((transition_model corpus cur d).getD []).map Prod.snd) (src t)) "")
      (incr cnt ((((transition_model corpus cur d).getD []).map Prod.fst).getD
        (weightedIndex (((transition_model corpus cur d).getD []).map Prod.snd) (src t)) "")) hk2
    have hunfold : walkSteps corpus d src (m + 1) t cur cnt
        = walkSteps corpus d src m (t + 1)
            ((((transition_model corpus cur d).getD []).map Prod.fst).getD
              (weightedIndex (((transition_model corpus cur d).getD []).map Prod.snd) (src t)) "")
            (incr cnt ((((transition_model corpus cur d).getD []).map Prod.fst).getD
              (weightedIndex (((transition_model corpus cur d).getD []).map Prod.snd) (src t)) "")) := rfl
    rw [hunfold]
    refine ⟨hstep.1, ?_⟩
    rw [hstep.2]
    rw [incr_sum cnt _ (hk ▸ hnd) (hk ▸ hnxt)]
    omega

/-- Through the trial loop, the counter dictionary keeps the corpus keys and
its total count grows by `N` per trial (one start plus `N - 1` steps). -/
theorem runTrials_keys_sum (corpus : Corpus) (d : ℚ) (src : ℕ → ℚ)
    (hne : corpus ≠ []) (hnd : (corpus.map Prod.fst).Nodup) :
    ∀ (m t : ℕ) (cnt : List (Page × ℕ)),
      cnt.map Prod.fst = corpus.map Prod.fst →
      (runTrials corpus d src m t cnt).1.map Prod.fst = corpus.map Prod.fst
      ∧ ((runTrials corpus d src m t cnt).1.map Prod.snd).sum
          = (cnt.map Prod.snd).sum + m * corpus.length := by
  intro m
  induction m with
  | zero =>
    intro t cnt hk
    exact ⟨hk, by simp [runTrials]⟩
  | succ m ih =>
    intro t cnt hk
    have hNpos : 0 < corpus.length := List.length_pos.mpr hne
    have hkl : (corpus.map Prod.fst).length = corpus.length := List.length_map _ _
    have hstart : (corpus.map Prod.fst).getD
        (uniformIndex (src t) (corpus.map Prod.fst).length) "" ∈ corpus.map Prod.fst := by
      apply getD_mem
      exact uniformIndex_lt _ _ (by rw [hkl]; exact hNpos)
    have hk2 : (incr cnt ((corpus.map Prod.fst).getD
        (uniformIndex (src t) (corpus.map Prod.fst).length) "")).map Prod.fst
        = corpus.map Prod.fst := by
      rw [incr_keys, hk]
    have hwalk := walkSteps_keys_sum corpus d src hne hnd (corpus.length - 1) (t + 1)
      ((corpus.map Prod.fst).getD (uniformIndex (src t) (corpus.map Prod.fst).length) "")
      (incr cnt ((corpus.map Prod.fst).getD
        (uniformIndex (src t) (corpus.map Prod.fst).length) "")) hk2
    have hrec := ih (walkSteps corpus d src (corpus.length - 1) (t + 1)
        ((corpus.map Prod.fst).getD (uniformIndex (src t) (corpus.map Prod.fst).length) "")
        (incr cnt ((corpus.map Prod.fst).getD
          (uniformIndex (src t) (corpus.map Prod.fst).length) ""))).2
      (walkSteps corpus d src (corpus.length - 1) (t + 1)
        ((corpus.map Prod.fst).getD (uniformIndex (src t) (corpus.map Prod.fst).length) "")
        (incr cnt ((corpus.map Prod.fst).getD
          (uniformIndex (src t) (corpus.map Prod.fst).length) ""))).1 hwalk.1
    refine ⟨hrec.1, ?_⟩
    rw [show runTrials corpus d src (m + 1) t cnt
        = runTrials corpus d src m
            (walkSteps corpus d src (corpus.length - 1) (t + 1)
              ((corpus.map Prod.fst).getD
                (uniformIndex (src t) (corpus.map Prod.fst).length) "")
              (incr cnt ((corpus.map Prod.fst).getD
                (uniformIndex (src t) (corpus.map Prod.fst).length) ""))).2
            (walkSteps corpus d src (corpus.length - 1) (t + 1)
              ((corpus.map Prod.fst).getD
                (uniformIndex (src t) (corpus.map Prod.fst).length) "")
              (incr cnt ((corpus.map Prod.fst).getD
                (uniformIndex (src t) (corpus.map Prod.fst).length) ""))).1 from rfl]
    rw [hrec.2, hwalk.2]
    rw [incr_sum cnt _ (hk ▸ hnd) (hk ▸ hstart)]
    have : 1 + (corpus.length - 1) = corpus.length := by omega
    ring_nf
    omega

/-- Auxiliary: a common divisor factors out of a mapped sum. -/
theorem sum_map_div {α : Type} (l : List α) (f : α → ℚ) (c : ℚ) :
    (l.map (fun x => f x / c)).sum = (l.map f).sum / c := by
  induction l with
  | nil => simp
  | cons a l ih =>
    simp only [List.map_cons, List.sum_cons, ih]
    rw [add_div]

/-- Auxiliary: casting counters to `ℚ` commutes with summing. -/
theorem sum_map_natCast (l : List (Page × ℕ)) :
    (l.map (fun kv => ((kv.2 : ℕ) : ℚ))).sum = (((l.map Prod.snd).sum : ℕ) : ℚ) := by
  induction l with
  | nil => simp
  | cons a l ih =>
    simp only [List.map_cons, List.sum_cons, ih]
    push_cast
    ring

/-- C3: on a non-empty corpus with distinct keys and a positive sample count,
`sample_pagerank` succeeds and returns a mapping with exactly the corpus
pages as keys whose values — each counter divided by `n * N` after `n`
trials of one uniformly-drawn start plus `N - 1` transition-model steps,
every visit counted — sum to exactly 1 in exact arithmetic, for every
stream of random draws. -/
theorem sample_pagerank_distribution (corpus : Corpus) (d : ℚ) (n : ℤ) (src : ℕ → ℚ)
    (hne : corpus ≠ []) (hn : 0 < n) (hnd : (corpus.map Prod.fst).Nodup) :
    ∃ dist, sample_pagerank corpus d n src = some dist
      ∧ dist.map Prod.fst = corpus.map Prod.fst
      ∧ (dist.map Prod.snd).sum = 1 := by
  have hlen0 : corpus.length ≠ 0 := fun h => hne (List.length_eq_zero.mp h)
  have hinitkeys : (corpus.map (fun kv => ((kv.1, (0 : ℕ)) : Page × ℕ))).map Prod.fst
      = corpus.map Prod.fst := by
    rw [List.map_map]
    rfl
  have hrt := runTrials_keys_sum corpus d src hne hnd n.toNat 0
    (corpus.map (fun kv => (kv.1, 0))) hinitkeys
  refine ⟨((runTrials corpus d src n.toNat 0 (corpus.map (fun kv => (kv.1, 0)))).1.map
      (fun kv => (kv.1, (kv.2 : ℚ) / ((n : ℚ) * (corpus.length : ℚ))))), ?_, ?_, ?_⟩
  · unfold sample_pagerank
    rw [if_neg (by rintro ⟨h, -⟩; exact hlen0 h)]
    simp only []
    rw [if_neg (by rintro ⟨-, h0⟩; omega)]
  · rw [List.map_map]
    exact hrt.1
  · rw [List.map_map]
    have hcomp : ((runTrials corpus d src n.toNat 0
        (corpus.map (fun kv => (kv.1, 0)))).1.map
          (fun kv : Page × ℕ =>
            ((kv.2 : ℕ) : ℚ) / ((n : ℚ) * (corpus.length : ℚ)))).sum
        = ((runTrials corpus d src n.toNat 0 (corpus.map (fun kv => (kv.1, 0)))).1.map
            (fun kv : Page × ℕ => ((kv.2 : ℕ) : ℚ))).sum
            / ((n : ℚ) * (corpus.length : ℚ)) :=
      sum_map_div _ (fun kv : Page × ℕ => ((kv.2 : ℕ) : ℚ)) _
    rw [show ((Prod.snd ∘ fun kv : Page × ℕ =>
          (kv.1, ((kv.2 : ℕ) : ℚ) / ((n : ℚ) * (corpus.length : ℚ)))) : Page × ℕ → ℚ)
        = (fun kv : Page × ℕ =>
            ((kv.2 : ℕ) : ℚ) / ((n : ℚ) * (corpus.length : ℚ))) from rfl]
    rw [hcomp, sum_map_natCast, hrt.2]
    have hinitsum : ((corpus.map (fun kv => ((kv.1, (0 : ℕ)) : Page × ℕ))).map Prod.snd).sum
        = 0 := by
      rw [List.map_map]
      apply List.sum_eq_zero
      intro x hx
      obtain ⟨kv, -, h⟩ := List.mem_map.mp hx
      rw [← h]
      rfl
    rw [hinitsum]
    have hcast : ((n.toNat : ℕ) : ℚ) = (n : ℚ) := by
      have h1 : ((n.toNat : ℤ) : ℚ) = (n : ℚ) := by
        exact_mod_cast congrArg (fun z : ℤ => (z : ℚ)) (Int.toNat_of_nonneg (le_of_lt hn))
      exact_mod_cast h1
    push_cast
    rw [hcast, zero_add]
    apply div_self
    apply mul_ne_zero
    · exact_mod_cast (by omega : n ≠ 0)
    · exact_mod_cast hlen0

/-- Witness for C3 at the two-page cycle corpus with `n = 2` and the constant
draw stream. -/
theorem sample_pagerank_distribution_witness :
    ∃ dist, sample_pagerank [("a.html", ["b.html"]), ("b.html", ["a.html"])]
        (17/20) 2 (fun _ => 0) = some dist
      ∧ dist.map Prod.fst
          = ([("a.html", ["b.html"]), ("b.html", ["a.html"])] : Corpus).map
              Prod.fst
      ∧ (dist.map Prod.snd).sum = 1 :=
  sample_pagerank_distribution
    [("a.html", ["b.html"]), ("b.html", ["a.html"])] (17/20) 2 (fun _ => 0)
    (by decide) (by decide) (by decide)

/-- The inner walk consumes exactly one draw per step. -/
theorem walkSteps_time (corpus : Corpus) (d : ℚ) (src : ℕ → ℚ) :
    ∀ (m t : ℕ) (cur : Page) (cnt : List (Page × ℕ)),
      (walkSteps corpus d src m t cur cnt).2 = t + m := by
  intro m
  induction m with
  | zero => intro t cur cnt; rfl
  | succ m ih =>
    intro t cur cnt
    have h := ih (t + 1)
      ((((transition_model corpus cur d).getD []).map Prod.fst).getD
        (weightedIndex (((transition_model corpus cur d).getD []).map Prod.snd) (src t)) "")
      (incr cnt ((((transition_model corpus cur d).getD []).map Prod.fst).getD
        (weightedIndex (((transition_model corpus cur d).getD []).map Prod.snd) (src t)) ""))
    rw [show walkSteps corpus d src (m + 1) t cur cnt
        = walkSteps corpus d src m (t + 1)
            ((((transition_model corpus cur d).getD []).map Prod.fst).getD
              (weightedIndex (((transition_model corpus cur d).getD []).map Prod.snd) (src t)) "")
            (incr cnt ((((transition_model corpus cur d).getD []).map Prod.fst).getD
              (weightedIndex (((transition_model corpus cur d).getD []).map Prod.snd) (src t)) ""))
        from rfl]
    rw [h]
    omega

/-- The inner walk depends only on the draws it actually consumes. -/
theorem walkSteps_src_agree (corpus : Corpus) (d : ℚ) (src1 src2 : ℕ → ℚ) :
    ∀ (m t : ℕ) (cur : Page) (cnt : List (Page × ℕ)),
      (∀ i, t ≤ i → i < t + m → src1 i = src2 i) →
      walkSteps corpus d src1 m t cur cnt = walkSteps corpus d src2 m t cur cnt := by
  intro m
  induction m with
  | zero => intro t cur cnt _; rfl
  | succ m ih =>
    intro t cur cnt h
    have h0 : src1 t = src2 t := h t (le_refl t) (by omega)
    rw [show walkSteps corpus d src1 (m + 1) t cur cnt
        = walkSteps corpus d src1 m (t + 1)
            ((((transition_model corpus cur d).getD []).map Prod.fst).getD
              (weightedIndex (((transition_model corpus cur d).getD []).map Prod.snd) (src1 t)) "")
            (incr cnt ((((transition_model corpus cur d).getD []).map Prod.fst).getD
              (weightedIndex (((transition_model corpus cur d).getD []).map Prod.snd) (src1 t)) ""))
        from rfl]
    rw [show walkSteps corpus d src2 (m + 1) t cur cnt
        = walkSteps corpus d src2 m (t + 1)
            ((((transition_model corpus cur d).getD []).map Prod.fst).getD
              (weightedIndex (((transition_model corpus cur d).getD []).map Prod.snd) (src2 t)) "")
            (incr cnt ((((transition_model corpus cur d).getD []).map Prod.fst).getD
              (weightedIndex (((transition_model corpus cur d).getD []).map Prod.snd) (src2 t)) ""))
        from rfl]
    rw [← h0]
    exact ih (t + 1) _ _ (fun i h1 h2 => h i (by omega) (by omega))

/-- The trial loop depends only on the draws it actually consumes: each trial
consumes exactly `N` draws (one start, `N - 1` steps). -/
theorem runTrials_src_agree (corpus : Corpus) (d : ℚ) (src1 src2 : ℕ → ℚ)
    (hNpos : 0 < corpus.length) :
    ∀ (m t : ℕ) (cnt : List (Page × ℕ)),
      (∀ i, t ≤ i → i < t + m * corpus.length → src1 i = src2 i) →
      runTrials corpus d src1 m t cnt = runTrials corpus d src2 m t cnt := by
  intro m
  induction m with
  | zero => intro t cnt _; rfl
  | succ m ih =>
    intro t cnt h
    have hexp : (m + 1) * corpus.length = corpus.length + m * corpus.length := by ring
    have h0 : src1 t = src2 t := by
      apply h t (le_refl t)
      omega
    rw [show runTrials corpus d src1 (m + 1) t cnt
        = runTrials corpus d src1 m
            (walkSteps corpus d src1 (corpus.length - 1) (t + 1)
              ((corpus.map Prod.fst).getD
                (uniformIndex (src1 t) (corpus.map Prod.fst).length) "")
              (incr cnt ((corpus.map Prod.fst).getD
                (uniformIndex (src1 t) (corpus.map Prod.fst).length) ""))).2
            (walkSteps corpus d src1 (corpus.length - 1) (t + 1)
              ((corpus.map Prod.fst).getD
                (uniformIndex (src1 t) (corpus.map Prod.fst).length) "")
              (incr cnt ((corpus.map Prod.fst).getD
                (uniformIndex (src1 t) (corpus.map Prod.fst).length) ""))).1 from rfl]
    rw [show runTrials corpus d src2 (m + 1) t cnt
        = runTrials corpus d src2 m
            (walkSteps corpus d src2 (corpus.length - 1) (t + 1)
              ((corpus.map Prod.fst).getD
                (uniformIndex (src2 t) (corpus.map Prod.fst).length) "")
              (incr cnt ((corpus.map Prod.fst).getD
                (uniformIndex (src2 t) (corpus.map Prod.fst).length) ""))).2
            (walkSteps corpus d src2 (corpus.length - 1) (t + 1)
              ((corpus.map Prod.fst).getD
                (uniformIndex (src2 t) (corpus.map Prod.fst).length) "")
              (incr cnt ((corpus.map Prod.fst).getD
                (uniformIndex (src2 t) (corpus.map Prod.fst).length) ""))).1 from rfl]
    rw [← h0]
    have hwalk : walkSteps corpus d src1 (corpus.length - 1) (t + 1)
        ((corpus.map Prod.fst).getD (uniformIndex (src1 t) (corpus.map Prod.fst).length) "")
        (incr cnt ((corpus.map Prod.fst).getD
          (uniformIndex (src1 t) (corpus.map Prod.fst).length) ""))
        = walkSteps corpus d src2 (corpus.length - 1) (t + 1)
            ((corpus.map Prod.fst).getD
              (uniformIndex (src1 t) (corpus.map Prod.fst).length) "")
            (incr cnt ((corpus.map Prod.fst).getD
              (uniformIndex (src1 t) (corpus.map Prod.fst).length) "")) := by
      apply walkSteps_src_agree
      intro i h1 h2
      apply h i (by omega)
      omega
    rw [hwalk]
    apply ih
    intro i h1 h2
    rw [walkSteps_time] at h1 h2
    apply h i (by omega)
    omega

/-- C9: `sample_pagerank` is deterministic in its random source — two runs on
identical inputs whose draw streams agree on every draw the run consumes
(the first `n * N` draws) return identical outputs; in particular identical
seeded sources give identical outputs. -/
theorem sample_pagerank_deterministic (corpus : Corpus) (d : ℚ) (n : ℤ)
    (src1 src2 : ℕ → ℚ)
    (hagree : ∀ i, i < n.toNat * corpus.length → src1 i = src2 i) :
    sample_pagerank corpus d n src1 = sample_pagerank corpus d n src2 := by
  unfold sample_pagerank
  by_cases h1 : corpus.length = 0 ∧ 0 < n
  · rw [if_pos h1, if_pos h1]
  · rw [if_neg h1, if_neg h1]
    rcases Nat.eq_zero_or_pos corpus.length with hz | hNpos
    · have hn0 : n ≤ 0 := by
        by_contra hpos
        exact h1 ⟨hz, by omega⟩
      have htn : n.toNat = 0 := Int.toNat_eq_zero.mpr hn0
      simp only []
      rw [htn]
      rfl
    · have hrt := runTrials_src_agree corpus d src1 src2 hNpos n.toNat 0
        (corpus.map (fun kv => (kv.1, 0)))
        (fun i _ h2i => hagree i (by omega))
      simp only []
      rw [hrt]

/-- Witness for C9: two draw streams that agree on the two consumed draws but
differ later give identical outputs on the two-page cycle corpus with
`n = 1`. -/
theorem sample_pagerank_deterministic_witness :
    sample_pagerank [("a.html", ["b.html"]), ("b.html", ["a.html"])] (17/20)
        1 (fun t => if t < 4 then 1/2 else 7)
      = sample_pagerank [("a.html", ["b.html"]), ("b.html", ["a.html"])]
          (17/20) 1 (fun t => if t < 4 then 1/2 else 9) :=
  sample_pagerank_deterministic
    [("a.html", ["b.html"]), ("b.html", ["a.html"])] (17/20) 1
    (fun t => if t < 4 then 1/2 else 7) (fun t => if t < 4 then 1/2 else 9) (by decide)
